import Mathlib

/-!
Verification of the Pearson-III frequency-curve fitting program
(HessianProbabilityGrid.py) against its natural-language specification.

The numeric core is shallowly embedded over the real numbers: numpy arrays
become lists of reals, the external scipy primitives (the Pearson III
quantile function, its CDF, the skewness estimator and the least-squares
optimizer) become explicit function parameters, and each method of the
`Data` class becomes a Lean function.  Division follows Lean's convention
that `x / 0 = 0`; wherever the program divides by a quantity that can
vanish, this is made explicit in the corresponding theorem.
-/

namespace HessianProbabilityGrid

/-- `self.expectation = np.mean(self.arr)` -/
noncomputable def expectation (arr : List ℝ) : ℝ :=
  arr.sum / arr.length

/-- `self.modulusRatio = self.arr / self.expectation` -/
noncomputable def modulusRatio (arr : List ℝ) : List ℝ :=
  arr.map (fun a => a / expectation arr)

/-- `self.coeffOfVar = np.sqrt(np.sum((self.modulusRatio - 1)**2) / (self.n - 1))` -/
noncomputable def coeffOfVar (arr : List ℝ) : ℝ :=
  Real.sqrt (((modulusRatio arr).map (fun m => (m - 1) ^ 2)).sum / ((arr.length : ℝ) - 1))

/-- Moment-mode branch:
`self.coeffOfSkew = np.sum((self.modulusRatio - 1)**3) / ((self.n - 3) * self.coeffOfVar**3)` -/
noncomputable def coeffOfSkewMoment (arr : List ℝ) : ℝ :=
  ((modulusRatio arr).map (fun m => (m - 1) ^ 3)).sum /
    (((arr.length : ℝ) - 3) * coeffOfVar arr ^ 3)

/-- The cached statistics record produced by `statParams`. -/
structure Stats where
  expectation : ℝ
  modulusRatio : List ℝ
  coeffOfVar : ℝ
  coeffOfSkew : ℝ

/-- `Data.statParams`.  The external estimator `stats.skew(arr, bias=False)` used by
the `varSkew=True` branch is scipy code, abstracted as the parameter `skewExt`. -/
noncomputable def statParams (skewExt : List ℝ → ℝ) (varSkew : Bool) (arr : List ℝ) : Stats :=
  { expectation := expectation arr
    modulusRatio := modulusRatio arr
    coeffOfVar := coeffOfVar arr
    coeffOfSkew := if varSkew then skewExt arr else coeffOfSkewMoment arr }

/-- A list's sum written as a sum over its positions. -/
lemma sum_map_fin (f : ℝ → ℝ) (l : List ℝ) :
    (l.map f).sum = ∑ j : Fin l.length, f (l.get j) := by
  induction l with
  | nil => simp
  | cons a t ih =>
    rw [List.map_cons, List.sum_cons, ih]
    show _ = ∑ j : Fin (t.length + 1), f ((a :: t).get j)
    rw [Fin.sum_univ_succ]
    rfl

lemma sum_fin (l : List ℝ) : l.sum = ∑ j : Fin l.length, l.get j := by
  have h := sum_map_fin id l
  rw [List.map_id] at h
  exact h

lemma sum_map_modulusRatio (f : ℝ → ℝ) (arr : List ℝ) :
    ((modulusRatio arr).map f).sum =
      ∑ j : Fin arr.length, f (arr.get j / expectation arr) := by
  rw [modulusRatio, List.map_map, sum_map_fin]
  rfl

lemma expectation_spec (arr : List ℝ) :
    expectation arr = (∑ j : Fin arr.length, arr.get j) / arr.length := by
  rw [expectation, sum_fin]

lemma coeffOfVar_spec (arr : List ℝ) :
    coeffOfVar arr =
      Real.sqrt (∑ j : Fin arr.length,
        (arr.get j / expectation arr - 1) ^ 2 / ((arr.length : ℝ) - 1)) := by
  rw [coeffOfVar, sum_map_modulusRatio, Finset.sum_div]

lemma coeffOfSkewMoment_spec (arr : List ℝ) :
    coeffOfSkewMoment arr =
      (∑ j : Fin arr.length, (arr.get j / expectation arr - 1) ^ 3) /
        (((arr.length : ℝ) - 3) * coeffOfVar arr ^ 3) := by
  rw [coeffOfSkewMoment, sum_map_modulusRatio]

lemma sum_map_mul_left (c : ℝ) (l : List ℝ) :
    (l.map (fun a => c * a)).sum = c * l.sum := by
  induction l with
  | nil => simp
  | cons a t ih => simp [ih, mul_add]

/-- `self.sorted = np.sort(self.arr)[::-1]`: ascending sort, then reversed. -/
noncomputable def sortedDesc (arr : List ℝ) : List ℝ :=
  (arr.insertionSort (· ≤ ·)).reverse

/-- `self.empiProb = (np.arange(self.n) + 1) / (self.n + 1) * 100`. -/
noncomputable def empiProb (arr : List ℝ) : List ℝ :=
  (List.range arr.length).map (fun i : ℕ => ((i : ℝ) + 1) / ((arr.length : ℝ) + 1) * 100)

/-- `self.empiProb[0]`, the first (smallest) empirical probability. -/
noncomputable def empiProbFirst (arr : List ℝ) : ℝ :=
  (empiProb arr).headI

/-- `self.probLimLeft = 1 if empiProb[0] > 1 else 10**(ceil(log10(empiProb[0])) - 1)`. -/
noncomputable def probLimLeft (arr : List ℝ) : ℝ :=
  if empiProbFirst arr > 1 then 1
  else (10 : ℝ) ^ (⌈Real.logb 10 (empiProbFirst arr)⌉ - 1)

/-- `self.probLimRight = 100 - self.probLimLeft`. -/
noncomputable def probLimRight (arr : List ℝ) : ℝ :=
  100 - probLimLeft arr

lemma length_sortedDesc (arr : List ℝ) : (sortedDesc arr).length = arr.length := by
  simp [sortedDesc]

lemma length_empiProb (arr : List ℝ) : (empiProb arr).length = arr.length := by
  rw [empiProb, List.length_map, List.length_range]

lemma empiProb_get (arr : List ℝ) (i : ℕ) (hi : i < arr.length) :
    (empiProb arr).get ⟨i, (length_empiProb arr).symm ▸ hi⟩ =
      ((i : ℝ) + 1) / ((arr.length : ℝ) + 1) * 100 := by
  simp only [empiProb, List.get_eq_getElem, List.getElem_map, List.getElem_range]

lemma empiProbFirst_eq (arr : List ℝ) (m : ℕ) (hm : arr.length = m + 1) :
    empiProbFirst arr = 100 / ((arr.length : ℝ) + 1) := by
  unfold empiProbFirst empiProb
  rw [hm, List.range_succ_eq_map, List.map_cons]
  show ((0 : ℕ) + 1 : ℝ) / ((m + 1 : ℕ) + 1 : ℝ) * 100 = _
  push_cast
  ring

/-- Modelled from the spec (the wording of C9): the largest power of ten less
than or equal to `p`. -/
noncomputable def largestPow10LE (p : ℝ) : ℝ :=
  (10 : ℝ) ^ ⌊Real.logb 10 p⌋

/-- Modelled from the spec (the wording of C9): left bound = 1 if the smallest
empirical probability exceeds 1, otherwise the largest power of ten ≤ that
probability, divided by ten. -/
noncomputable def probLimLeftClaimed (arr : List ℝ) : ℝ :=
  if empiProbFirst arr > 1 then 1 else largestPow10LE (empiProbFirst arr) / 10

/-- The smallest power of ten greater than or equal to `p` (the quantity the
code actually divides by ten: `10^(ceil(log10 p) - 1) = 10^(ceil(log10 p))/10`). -/
noncomputable def smallestPow10GE (p : ℝ) : ℝ :=
  (10 : ℝ) ^ ⌈Real.logb 10 p⌉

lemma sortedDesc_perm (arr : List ℝ) : List.Perm (sortedDesc arr) arr :=
  (arr.insertionSort (· ≤ ·)).reverse_perm.trans (List.perm_insertionSort _ arr)

lemma sortedDesc_sorted (arr : List ℝ) : List.Sorted (· ≥ ·) (sortedDesc arr) :=
  List.pairwise_reverse.mpr (List.sorted_insertionSort (· ≤ ·) arr)

/-- The fitted distribution-parameter triple `(fitEX, fitCV, fitCS)`. -/
structure FitState where
  fitEX : ℝ
  fitCV : ℝ
  fitCS : ℝ

/-- `Data.prob2Value`:
`value = (pearson3.ppf(1 - prob / 100, self.fitCS) * self.fitCV + 1) * self.fitEX`.
The scipy quantile function `pearson3.ppf` is external and abstracted as `ppf`. -/
noncomputable def prob2Value (ppf : ℝ → ℝ → ℝ) (st : FitState) (prob : ℝ) : ℝ :=
  (ppf (1 - prob / 100) st.fitCS * st.fitCV + 1) * st.fitEX

/-- `Data.value2Prob`:
`prob = 100 - pearson3.cdf((value / self.fitEX - 1) / self.fitCV, self.fitCS) * 100`.
The scipy CDF `pearson3.cdf` is external and abstracted as `cdf`. -/
noncomputable def value2Prob (cdf : ℝ → ℝ → ℝ) (st : FitState) (value : ℝ) : ℝ :=
  100 - cdf ((value / st.fitEX - 1) / st.fitCV) st.fitCS * 100

/-- Modelled from the spec: the shared Pearson III evaluation primitive of
section 4.3, `value = (InverseCDF(1 - p/100; skew=CS) · CV + 1) · EX`. -/
noncomputable def pearson3Eval (ppf : ℝ → ℝ → ℝ) (p EX CV CS : ℝ) : ℝ :=
  (ppf (1 - p / 100) CS * CV + 1) * EX

/-- The full attribute state of the `Data` object, one field per instance
attribute assigned anywhere in the class. -/
structure DataState where
  arr : List ℝ
  n : ℕ
  expectation : ℝ
  modulusRatio : List ℝ
  coeffOfVar : ℝ
  coeffOfSkew : ℝ
  sorted : List ℝ
  empiProb : List ℝ
  probLimLeft : ℝ
  probLimRight : ℝ
  fitEX : ℝ
  fitCV : ℝ
  fitCS : ℝ

/-- `Data.prob2Value` as a state-passing method: the body assigns no attribute,
so the state component is returned unchanged. -/
noncomputable def prob2ValueM (ppf : ℝ → ℝ → ℝ) (d : DataState) (prob : ℝ) :
    DataState × ℝ :=
  (d, (ppf (1 - prob / 100) d.fitCS * d.fitCV + 1) * d.fitEX)

/-- `Data.value2Prob` as a state-passing method. -/
noncomputable def value2ProbM (cdf : ℝ → ℝ → ℝ) (d : DataState) (value : ℝ) :
    DataState × ℝ :=
  (d, 100 - cdf ((value / d.fitEX - 1) / d.fitCV) d.fitCS * 100)

/-- `Data.plotFitting`.  The scipy optimizer `curve_fit` is external and
abstracted as `cf`, taking the model function, the x data, the y data and the
initial guess, and returning the optimized free parameters (the model receives
its free parameters as a list, read positionally as in the source lambdas).
The four branches mirror the nested conditionals on `svRatio` and `EXFitting`:
whenever `EXFitting` is false the code sets `self.fitEX = self.expectation`
after the fit, and whenever `svRatio ≠ 0` it sets
`self.fitCS = self.fitCV * svRatio`. -/
noncomputable def plotFitting (cf : (ℝ → List ℝ → ℝ) → List ℝ → List ℝ → List ℝ → List ℝ)
    (ppf : ℝ → ℝ → ℝ) (EX CV CS : ℝ) (xdata ydata : List ℝ)
    (svRatio : ℝ) (EXFitting : Bool) : FitState :=
  if svRatio = 0 then
    if EXFitting then
      let popt := cf (fun prob p =>
        (ppf (1 - prob / 100) (p.getD 2 0) * p.getD 1 0 + 1) * p.getD 0 0)
        xdata ydata [EX, CV, CS]
      ⟨popt.getD 0 0, popt.getD 1 0, popt.getD 2 0⟩
    else
      let popt := cf (fun prob p =>
        (ppf (1 - prob / 100) (p.getD 1 0) * p.getD 0 0 + 1) * EX)
        xdata ydata [CV, CS]
      ⟨EX, popt.getD 0 0, popt.getD 1 0⟩
  else
    if EXFitting then
      let popt := cf (fun prob p =>
        (ppf (1 - prob / 100) (p.getD 1 0 * svRatio) * p.getD 1 0 + 1) * p.getD 0 0)
        xdata ydata [EX, CV]
      ⟨popt.getD 0 0, popt.getD 1 0, popt.getD 1 0 * svRatio⟩
    else
      let popt := cf (fun prob p =>
        (ppf (1 - prob / 100) (p.getD 0 0 * svRatio) * p.getD 0 0 + 1) * EX)
        xdata ydata [CV]
      ⟨EX, popt.getD 0 0, popt.getD 0 0 * svRatio⟩

/-- A concrete optimizer used only for witnessing: it returns the initial
guess unchanged. -/
def wCF : (ℝ → List ℝ → ℝ) → List ℝ → List ℝ → List ℝ → List ℝ :=
  fun _ _ _ p0 => p0

/-- A concrete stand-in for the external quantile function, used only for
witnessing. -/
def wPPF : ℝ → ℝ → ℝ :=
  fun a b => a + b

/-- A concrete state used to witness the frame property. -/
noncomputable def dState1 : DataState :=
  ⟨[1], 1, 0, [], 0, 0, [], [], 0, 0, 2, 3, 4⟩

/-- A second concrete state, differing from `dState1` everywhere except in the
fitted triple. -/
noncomputable def dState2 : DataState :=
  ⟨[5, 6], 2, 1, [1], 1, 1, [1], [1], 1, 1, 2, 3, 4⟩

end HessianProbabilityGrid

namespace HessianProbabilityGrid

/-- C1: in moment mode (`varSkew=False`), `statParams` caches the arithmetic mean,
the per-observation modulus ratios `arr[i]/expectation`, the Bessel-corrected
root-mean-square coefficient of variation, and the moment coefficient of skew
`Σ(K[i]-1)³ / ((n-3)·Cv³)`. -/
theorem statParams_moment_spec (skewExt : List ℝ → ℝ) (arr : List ℝ) :
    (statParams skewExt false arr).expectation =
        (∑ j : Fin arr.length, arr.get j) / arr.length ∧
    (statParams skewExt false arr).modulusRatio =
        arr.map (fun a => a / ((∑ j : Fin arr.length, arr.get j) / arr.length)) ∧
    (statParams skewExt false arr).coeffOfVar =
        Real.sqrt (∑ j : Fin arr.length,
          (arr.get j / ((∑ k : Fin arr.length, arr.get k) / arr.length) - 1) ^ 2 /
            ((arr.length : ℝ) - 1)) ∧
    (statParams skewExt false arr).coeffOfSkew =
        (∑ j : Fin arr.length,
            (arr.get j / ((∑ k : Fin arr.length, arr.get k) / arr.length) - 1) ^ 3) /
          (((arr.length : ℝ) - 3) * (statParams skewExt false arr).coeffOfVar ^ 3) := by
  simp only [statParams, if_neg (Bool.false_ne_true)]
  refine ⟨expectation_spec arr, ?_, ?_, ?_⟩
  · rw [modulusRatio, expectation_spec]
  · rw [coeffOfVar_spec, expectation_spec]
  · rw [coeffOfSkewMoment_spec, expectation_spec]

/-- C8: the coefficient of variation is invariant under uniform positive scaling
of the sample. -/
theorem coeffOfVar_scale_invariant (arr : List ℝ) (c : ℝ) (hc : 0 < c) :
    coeffOfVar (arr.map (fun a => c * a)) = coeffOfVar arr := by
  have hE : expectation (arr.map (fun a => c * a)) = c * expectation arr := by
    simp [expectation, sum_map_mul_left, mul_div_assoc]
  have hmr : modulusRatio (arr.map (fun a => c * a)) = modulusRatio arr := by
    unfold modulusRatio
    rw [hE, List.map_map]
    refine List.map_congr_left fun a _ => ?_
    simp only [Function.comp_apply]
    exact mul_div_mul_left a (expectation arr) hc.ne'
  unfold coeffOfVar
  rw [hmr, List.length_map]

/-- Witness for C8 at the sample `[1, 3]` scaled by `2`. -/
theorem coeffOfVar_scale_invariant_witness :
    (0:ℝ) < 2 ∧
      coeffOfVar ([(1:ℝ), 3].map (fun a => 2 * a)) = coeffOfVar [(1:ℝ), 3] :=
  ⟨by norm_num, coeffOfVar_scale_invariant [(1:ℝ), 3] 2 (by norm_num)⟩

/-- C2: for a sample of length at least one, `empiScatter` pairs the sample sorted
in descending order with the exceedance probabilities `r/(n+1)·100`; the
probability sequence is strictly increasing in rank while the value sequence is
non-increasing. -/
theorem empiScatter_spec (arr : List ℝ) (h : 1 ≤ arr.length) :
    List.Perm (sortedDesc arr) arr ∧
    List.Sorted (· ≥ ·) (sortedDesc arr) ∧
    (∀ i : Fin arr.length,
      (empiProb arr).get (Fin.cast (length_empiProb arr).symm i) =
        ((i : ℝ) + 1) / ((arr.length : ℝ) + 1) * 100) ∧
    (∀ i j : Fin arr.length, i < j →
      (empiProb arr).get (Fin.cast (length_empiProb arr).symm i) <
        (empiProb arr).get (Fin.cast (length_empiProb arr).symm j)) ∧
    (∀ i j : Fin arr.length, i < j →
      (sortedDesc arr).get (Fin.cast (length_sortedDesc arr).symm j) ≤
        (sortedDesc arr).get (Fin.cast (length_sortedDesc arr).symm i)) := by
  refine ⟨sortedDesc_perm arr, sortedDesc_sorted arr, ?_, ?_, ?_⟩
  · intro i
    simp only [empiProb, List.get_eq_getElem, Fin.coe_cast, List.getElem_map,
      List.getElem_range]
  · intro i j hij
    simp only [empiProb, List.get_eq_getElem, Fin.coe_cast, List.getElem_map,
      List.getElem_range]
    have hlt : ((i : ℕ) : ℝ) < ((j : ℕ) : ℝ) := by exact_mod_cast hij
    have hn : (0:ℝ) < (arr.length : ℝ) + 1 := by positivity
    rw [div_eq_mul_inv, div_eq_mul_inv]
    apply mul_lt_mul_of_pos_right _ (by norm_num : (0:ℝ) < 100)
    exact mul_lt_mul_of_pos_right (by linarith) (inv_pos.2 hn)
  · intro i j hij
    exact (sortedDesc_sorted arr).rel_get_of_lt (by simpa using hij)

/-- Witness for C2 at the sample `[1, 2]`. -/
theorem empiScatter_spec_witness :
    List.Perm (sortedDesc [(1:ℝ), 2]) [(1:ℝ), 2] ∧
      List.Sorted (· ≥ ·) (sortedDesc [(1:ℝ), 2]) :=
  ⟨(empiScatter_spec [(1:ℝ), 2] (by norm_num)).1,
    (empiScatter_spec [(1:ℝ), 2] (by norm_num)).2.1⟩

/-- C3: `prob2Value(prob)` returns
`(InverseCDF(1 - prob/100; skew=fitCS) · fitCV + 1) · fitEX`, i.e. the shared
Pearson III evaluation primitive applied to the fitted triple. -/
theorem prob2Value_spec (ppf : ℝ → ℝ → ℝ) (st : FitState) (prob : ℝ) :
    prob2Value ppf st prob = (ppf (1 - prob / 100) st.fitCS * st.fitCV + 1) * st.fitEX ∧
    prob2Value ppf st prob = pearson3Eval ppf prob st.fitEX st.fitCV st.fitCS :=
  ⟨rfl, rfl⟩

/-- C4: when the external quantile function and CDF are mutual inverses at the
relevant points and the fitted `EX` and `CV` do not vanish, `value2Prob` and
`prob2Value` are exact mutual inverses (hence agree within any tolerance). -/
theorem prob2Value_value2Prob_roundtrip (ppf cdf : ℝ → ℝ → ℝ) (st : FitState)
    (p v : ℝ) (hEX : st.fitEX ≠ 0) (hCV : st.fitCV ≠ 0)
    (hinv1 : cdf (ppf (1 - p / 100) st.fitCS) st.fitCS = 1 - p / 100)
    (hinv2 : ppf (cdf ((v / st.fitEX - 1) / st.fitCV) st.fitCS) st.fitCS =
      (v / st.fitEX - 1) / st.fitCV) :
    value2Prob cdf st (prob2Value ppf st p) = p ∧
    prob2Value ppf st (value2Prob cdf st v) = v := by
  constructor
  · unfold value2Prob prob2Value
    have harg : ((ppf (1 - p / 100) st.fitCS * st.fitCV + 1) * st.fitEX / st.fitEX - 1) /
        st.fitCV = ppf (1 - p / 100) st.fitCS := by
      field_simp
    rw [harg, hinv1]
    ring
  · unfold prob2Value value2Prob
    have harg : 1 - (100 - cdf ((v / st.fitEX - 1) / st.fitCV) st.fitCS * 100) / 100 =
        cdf ((v / st.fitEX - 1) / st.fitCV) st.fitCS := by
      ring
    rw [harg, hinv2]
    field_simp
    ring

/-- Witness for C4 with identity quantile and CDF (which are mutual inverses)
at `p = 50`, `v = 2` and the fitted triple `(1, 1, 0)`. -/
theorem prob2Value_value2Prob_roundtrip_witness :
    value2Prob (fun x _ => x) ⟨1, 1, 0⟩ (prob2Value (fun q _ => q) ⟨1, 1, 0⟩ 50) = 50 ∧
    prob2Value (fun q _ => q) ⟨1, 1, 0⟩ (value2Prob (fun x _ => x) ⟨1, 1, 0⟩ 2) = 2 :=
  prob2Value_value2Prob_roundtrip (fun q _ => q) (fun x _ => x) ⟨1, 1, 0⟩ 50 2
    (by norm_num) (by norm_num) (by norm_num) (by norm_num)

/-- C7 fails on the code: `prob2Value` performs no domain check at all.  At the
boundary `prob = 0` and the out-of-range `prob = 150` it simply evaluates the
external quantile function at `1` resp. `-1/2` (both outside the inverse CDF's
domain `(0,1)`) and returns the resulting value instead of raising an error. -/
theorem prob2Value_no_domain_check (ppf : ℝ → ℝ → ℝ) (st : FitState) :
    prob2Value ppf st 0 = (ppf 1 st.fitCS * st.fitCV + 1) * st.fitEX ∧
    prob2Value ppf st 150 = (ppf (-(1 / 2)) st.fitCS * st.fitCV + 1) * st.fitEX := by
  constructor <;> · unfold prob2Value; norm_num

/-- C10: `prob2Value` and `value2Prob` leave every stored attribute unchanged
and their results depend only on the fitted triple `(fitEX, fitCV, fitCS)`. -/
theorem quantile_frame_spec (ppf cdf : ℝ → ℝ → ℝ) (d e : DataState) (prob value : ℝ)
    (hEX : d.fitEX = e.fitEX) (hCV : d.fitCV = e.fitCV) (hCS : d.fitCS = e.fitCS) :
    (prob2ValueM ppf d prob).1 = d ∧
    (value2ProbM cdf d value).1 = d ∧
    (prob2ValueM ppf d prob).2 = (prob2ValueM ppf e prob).2 ∧
    (value2ProbM cdf d value).2 = (value2ProbM cdf e value).2 := by
  refine ⟨rfl, rfl, ?_, ?_⟩ <;> simp [prob2ValueM, value2ProbM, hEX, hCV, hCS]

/-- C5: for every fitting configuration, `plotFitting` fills the non-free
parameters of the returned triple via their fixed relations: with
`EXFitting = false` the returned `fitEX` is exactly the sample mean, and with
`svRatio ≠ 0` the returned triple satisfies `fitCS = fitCV · svRatio`, hence
`fitCS / fitCV = svRatio` whenever `fitCV ≠ 0`. -/
theorem plotFitting_populates_fixed
    (cf : (ℝ → List ℝ → ℝ) → List ℝ → List ℝ → List ℝ → List ℝ)
    (ppf : ℝ → ℝ → ℝ) (arr xdata ydata : List ℝ) (svRatio : ℝ) (EXFitting : Bool) :
    (EXFitting = false →
      (plotFitting cf ppf (expectation arr) (coeffOfVar arr) (coeffOfSkewMoment arr)
          xdata ydata svRatio EXFitting).fitEX = expectation arr) ∧
    (svRatio ≠ 0 →
      (plotFitting cf ppf (expectation arr) (coeffOfVar arr) (coeffOfSkewMoment arr)
          xdata ydata svRatio EXFitting).fitCS =
        (plotFitting cf ppf (expectation arr) (coeffOfVar arr) (coeffOfSkewMoment arr)
          xdata ydata svRatio EXFitting).fitCV * svRatio ∧
      ((plotFitting cf ppf (expectation arr) (coeffOfVar arr) (coeffOfSkewMoment arr)
          xdata ydata svRatio EXFitting).fitCV ≠ 0 →
        (plotFitting cf ppf (expectation arr) (coeffOfVar arr) (coeffOfSkewMoment arr)
            xdata ydata svRatio EXFitting).fitCS /
          (plotFitting cf ppf (expectation arr) (coeffOfVar arr) (coeffOfSkewMoment arr)
            xdata ydata svRatio EXFitting).fitCV = svRatio)) := by
  by_cases hsv : svRatio = 0
  · cases EXFitting with
    | false =>
      refine ⟨fun _ => ?_, fun hne => absurd hsv hne⟩
      simp [plotFitting, hsv]
    | true =>
      exact ⟨fun h => by simp at h, fun hne => absurd hsv hne⟩
  · have hcs : (plotFitting cf ppf (expectation arr) (coeffOfVar arr)
        (coeffOfSkewMoment arr) xdata ydata svRatio EXFitting).fitCS =
      (plotFitting cf ppf (expectation arr) (coeffOfVar arr) (coeffOfSkewMoment arr)
        xdata ydata svRatio EXFitting).fitCV * svRatio := by
      cases EXFitting with
      | false => simp [plotFitting, hsv]
      | true => simp [plotFitting, hsv]
    refine ⟨fun hEXf => ?_, fun _ => ⟨hcs, fun hcv => ?_⟩⟩
    · cases EXFitting with
      | false => simp [plotFitting, hsv]
      | true => simp at hEXf
    · rw [hcs, mul_comm, mul_div_assoc, div_self hcv, mul_one]

/-- Witness for C5: identity-like optimizer, `svRatio = 2`, `EXFitting = false`
on the sample `[1, 2]`. -/
theorem plotFitting_populates_fixed_witness :
    (plotFitting wCF wPPF (expectation [(1:ℝ), 2]) (coeffOfVar [(1:ℝ), 2])
        (coeffOfSkewMoment [(1:ℝ), 2]) (empiProb [(1:ℝ), 2]) (sortedDesc [(1:ℝ), 2])
        2 false).fitEX = expectation [(1:ℝ), 2] ∧
    (plotFitting wCF wPPF (expectation [(1:ℝ), 2]) (coeffOfVar [(1:ℝ), 2])
        (coeffOfSkewMoment [(1:ℝ), 2]) (empiProb [(1:ℝ), 2]) (sortedDesc [(1:ℝ), 2])
        2 false).fitCS =
      (plotFitting wCF wPPF (expectation [(1:ℝ), 2]) (coeffOfVar [(1:ℝ), 2])
        (coeffOfSkewMoment [(1:ℝ), 2]) (empiProb [(1:ℝ), 2]) (sortedDesc [(1:ℝ), 2])
        2 false).fitCV * 2 :=
  ⟨(plotFitting_populates_fixed wCF wPPF [(1:ℝ), 2] (empiProb [(1:ℝ), 2])
      (sortedDesc [(1:ℝ), 2]) 2 false).1 rfl,
    ((plotFitting_populates_fixed wCF wPPF [(1:ℝ), 2] (empiProb [(1:ℝ), 2])
      (sortedDesc [(1:ℝ), 2]) 2 false).2 (by norm_num)).1⟩

/-- C6 fails on the code: `statParams` performs no sample-size check.  For the
degenerate samples `[1]` (n = 1) and `[1, 2, 3]` (n = 3) it computes anyway:
at n = 3 the skew denominator `(n-3)·Cv³` is `0` and at n = 1 the variance
denominator `n-1` is `0`; numpy turns these divisions into NaN/Inf warnings
while the real-valued embedding yields the junk value `0`, and no
`InsufficientSampleError` (which does not exist in the code) is raised. -/
theorem statParams_no_sample_size_check (skewExt : List ℝ → ℝ) :
    ((([1, 2, 3] : List ℝ).length : ℝ) - 3) * coeffOfVar [(1:ℝ), 2, 3] ^ 3 = 0 ∧
    (statParams skewExt false [(1:ℝ), 2, 3]).coeffOfSkew = 0 ∧
    (([(1:ℝ)].length : ℝ) - 1 = 0) ∧
    (statParams skewExt false [(1:ℝ)]).coeffOfVar = 0 := by
  have h3 : (([1, 2, 3] : List ℝ).length : ℝ) - 3 = 0 := by norm_num
  refine ⟨by rw [h3, zero_mul], ?_, by norm_num, ?_⟩
  · simp only [statParams, if_neg (Bool.false_ne_true), coeffOfSkewMoment]
    rw [h3, zero_mul, div_zero]
  · simp only [statParams, coeffOfVar, modulusRatio, expectation]
    norm_num

/-- C9 as stated is false: at a sample of size 199 the smallest empirical
probability is `100/200 = 0.5`, the code computes
`10^(ceil(log10 0.5) - 1) = 10^(0-1) = 0.1`, but the claimed
"largest power of ten ≤ 0.5, divided by ten" is `0.1/10 = 0.01`. -/
theorem probLimLeft_counterexample :
    probLimLeft (List.replicate 199 (1:ℝ)) = 1 / 10 ∧
    probLimLeftClaimed (List.replicate 199 (1:ℝ)) = 1 / 100 ∧
    probLimLeft (List.replicate 199 (1:ℝ)) ≠
      probLimLeftClaimed (List.replicate 199 (1:ℝ)) := by
  have hfirst : empiProbFirst (List.replicate 199 (1:ℝ)) = 1 / 2 := by
    rw [empiProbFirst_eq _ 198 (by rw [List.length_replicate])]
    simp only [List.length_replicate]
    norm_num
  have hnotgt : ¬ empiProbFirst (List.replicate 199 (1:ℝ)) > 1 := by
    rw [hfirst]; norm_num
  have hlow : (-1 : ℝ) < Real.logb 10 ((1:ℝ) / 2) := by
    have h1 : Real.logb 10 ((1:ℝ) / 10) = -1 := by
      rw [one_div, Real.logb_inv, Real.logb_self_eq_one (by norm_num : (1:ℝ) < 10)]
    have h2 : Real.logb 10 ((1:ℝ) / 10) < Real.logb 10 ((1:ℝ) / 2) :=
      Real.logb_lt_logb (by norm_num) (by norm_num) (by norm_num)
    rw [h1] at h2
    exact h2
  have hup : Real.logb 10 ((1:ℝ) / 2) ≤ 0 :=
    Real.logb_nonpos (by norm_num) (by norm_num) (by norm_num)
  have hceil : ⌈Real.logb 10 ((1:ℝ) / 2)⌉ = 0 := by
    rw [Int.ceil_eq_zero_iff]
    exact ⟨hlow, hup⟩
  have hfloor : ⌊Real.logb 10 ((1:ℝ) / 2)⌋ = -1 := by
    rw [Int.floor_eq_iff]
    have hneg : Real.logb 10 ((1:ℝ) / 2) < 0 :=
      Real.logb_neg (by norm_num) (by norm_num) (by norm_num)
    constructor
    · push_cast
      exact hlow.le
    · push_cast
      linarith
  have h1 : probLimLeft (List.replicate 199 (1:ℝ)) = 1 / 10 := by
    rw [probLimLeft, if_neg hnotgt, hfirst, hceil]
    norm_num
  have h2 : probLimLeftClaimed (List.replicate 199 (1:ℝ)) = 1 / 100 := by
    rw [probLimLeftClaimed, if_neg hnotgt, largestPow10LE, hfirst, hfloor]
    norm_num
  exact ⟨h1, h2, by rw [h1, h2]; norm_num⟩

/-- C9 amended: the left bound is 1 if the smallest empirical probability
exceeds 1, and otherwise the smallest power of ten greater than or equal to
that probability, divided by ten; the right bound is 100 minus the left
bound. -/
theorem probLim_amended (arr : List ℝ) (_h : 1 ≤ arr.length) :
    (empiProbFirst arr > 1 → probLimLeft arr = 1) ∧
    (¬ empiProbFirst arr > 1 →
      probLimLeft arr = smallestPow10GE (empiProbFirst arr) / 10) ∧
    probLimRight arr = 100 - probLimLeft arr := by
  refine ⟨fun hgt => ?_, fun hle => ?_, rfl⟩
  · rw [probLimLeft, if_pos hgt]
  · rw [probLimLeft, if_neg hle, smallestPow10GE,
      zpow_sub_one₀ (by norm_num : (10:ℝ) ≠ 0), div_eq_mul_inv]

/-- Witness for C9 (amended) at the singleton sample `[5]`, whose smallest
empirical probability is 50. -/
theorem probLim_amended_witness :
    probLimLeft [(5:ℝ)] = 1 ∧ probLimRight [(5:ℝ)] = 100 - probLimLeft [(5:ℝ)] := by
  have h := probLim_amended [(5:ℝ)] (by norm_num)
  have h50 : empiProbFirst [(5:ℝ)] > 1 := by
    rw [empiProbFirst_eq [(5:ℝ)] 0 (by simp)]
    norm_num
  exact ⟨h.1 h50, h.2.2⟩

/-- Witness for C10 on two concrete states sharing only the fitted triple. -/
theorem quantile_frame_spec_witness :
    (prob2ValueM (fun a b => a + b) dState1 10).1 = dState1 ∧
    (value2ProbM (fun a b => a * b) dState1 7).1 = dState1 ∧
    (prob2ValueM (fun a b => a + b) dState1 10).2 =
      (prob2ValueM (fun a b => a + b) dState2 10).2 ∧
    (value2ProbM (fun a b => a * b) dState1 7).2 =
      (value2ProbM (fun a b => a * b) dState2 7).2 :=
  quantile_frame_spec (fun a b => a + b) (fun a b => a * b) dState1 dState2 10 7
    rfl rfl rfl

end HessianProbabilityGrid
